import Mathlib

/-!
# Verification of `src/fenv_shim.c`

The source is a two-function shim over the C floating-point environment:

    int  fenv_get_round(void)     { return fegetround(); }
    void fenv_set_round(int mode) { fesetround(mode); }

`fegetround` and `fesetround` come from `<fenv.h>`; they belong to the C
library, not to this repository.  They are therefore taken as a parameter
(`Platform`), and every fact that is assumed about them is a named, explicit
hypothesis of the theorem that needs it.  Ambient state is threaded
explicitly: a call maps the environment before it to its return value and the
environment after it.  C `int` is modelled by `Int`; the shim performs no
arithmetic, so no overflow can occur, and quantifying over all of `Int`
covers every C `int`.  The directive `#pragma STDC FENV_ACCESS ON` only tells the
compiler that the environment is accessed; it has no behaviour of its own.
-/

namespace FenvShim

/-! ## The platform interface (`<fenv.h>`), a parameter of the development -/

/-- The part of `<fenv.h>` the shim is compiled against.  `Env` is the ambient
floating-point environment of the calling thread.  Both library functions are
given the most general shape (return value and environment afterwards), so that
nothing about their behaviour is built into the types. -/
structure Platform where
  /-- Ambient floating-point environment. -/
  Env : Type
  /-- Model of `int fegetround(void)`. -/
  fegetround : Env → Int × Env
  /-- Model of `int fesetround(int round)`: status (zero means established) and environment. -/
  fesetround : Int → Env → Int × Env
  /-- Value of `FE_TONEAREST`. -/
  FE_TONEAREST : Int
  /-- Value of `FE_TOWARDZERO`. -/
  FE_TOWARDZERO : Int
  /-- Value of `FE_UPWARD`. -/
  FE_UPWARD : Int
  /-- Value of `FE_DOWNWARD`. -/
  FE_DOWNWARD : Int
  /-- The environment `FE_DFL_ENV`, installed at program startup. -/
  FE_DFL_ENV : Env

/-- The four rounding modes the specification enumerates. -/
inductive RoundingMode where
  | ToNearestTiesToEven
  | TowardZero
  | TowardPositiveInfinity
  | TowardNegativeInfinity
  deriving DecidableEq, Repr

/-- Platform code of a rounding mode: the value of the corresponding `FE_` constant. -/
def Platform.code (P : Platform) : RoundingMode → Int
  | .ToNearestTiesToEven => P.FE_TONEAREST
  | .TowardZero => P.FE_TOWARDZERO
  | .TowardPositiveInfinity => P.FE_UPWARD
  | .TowardNegativeInfinity => P.FE_DOWNWARD

/-- An integer is a legal rounding mode when it equals one of the four `FE_` constants. -/
def Platform.legal (P : Platform) (m : Int) : Prop :=
  m = P.FE_TONEAREST ∨ m = P.FE_TOWARDZERO ∨ m = P.FE_UPWARD ∨ m = P.FE_DOWNWARD

instance Platform.decLegal (P : Platform) (m : Int) : Decidable (P.legal m) := by
  unfold Platform.legal
  exact inferInstance

/-! ## The shim (`src/fenv_shim.c`) -/

/-- Embedding of `int fenv_get_round(void) { return fegetround(); }`. -/
def fenv_get_round (P : Platform) (s : P.Env) : Int × P.Env :=
  P.fegetround s

/-- Embedding of `void fenv_set_round(int mode) { fesetround(mode); }`.  The status that
`fesetround` returns is dropped; the caller receives `()` (the function is `void`). -/
def fenv_set_round (P : Platform) (mode : Int) (s : P.Env) : Unit × P.Env :=
  let r := P.fesetround mode s
  ((), r.2)

/-! ## What is assumed of the C library

The predicates `GetIsPure`, `SetEstablishes`, `RejectKeepsMode` and `StartsToNearest` each
restate one sentence of ISO C (7.6.3 and Annex F) for the parameter `P`;
`SetWritesOnlyRounding` is a frame condition that ISO C does not spell out.  None is assumed
globally: a theorem lists the ones it uses. -/

/-- The call `fegetround` only reads: it leaves the environment as it found it (ISO C 7.6.3.1). -/
def Platform.GetIsPure (P : Platform) : Prop :=
  ∀ s : P.Env, (P.fegetround s).2 = s

/-- The call `fesetround` establishes each of the four rounding directions whose constant
the platform defines, so that `fegetround` then reports it (ISO C 7.6p8 and 7.6.3.2). -/
def Platform.SetEstablishes (P : Platform) : Prop :=
  ∀ (m : Int) (s : P.Env), P.legal m → (P.fegetround (P.fesetround m s).2).1 = m

/-- If the argument of `fesetround` is not the value of a rounding direction constant,
the rounding direction is not changed (ISO C 7.6.3.2p2). -/
def Platform.RejectKeepsMode (P : Platform) : Prop :=
  ∀ (m : Int) (s : P.Env), ¬ P.legal m →
    (P.fegetround (P.fesetround m s).2).1 = (P.fegetround s).1

/-- Environment of the reference platforms: the current rounding direction and the
remaining content of the floating-point environment (the exception flags). -/
structure RefEnv where
  round : Int
  excepts : Nat
  deriving DecidableEq, Repr

/-- Reference platform with the four rounding directions, numbered as on x86 glibc
(`FE_TONEAREST = 0`, `FE_DOWNWARD = 0x400`, `FE_UPWARD = 0x800`, `FE_TOWARDZERO = 0xc00`).
`fesetround` refuses every other integer with status 1 and changes nothing. -/
def refPlatform : Platform where
  Env := RefEnv
  fegetround s := (s.round, s)
  fesetround m s :=
    if m = 0 ∨ m = 0xc00 ∨ m = 0x800 ∨ m = 0x400 then (0, { s with round := m }) else (1, s)
  FE_TONEAREST := 0
  FE_TOWARDZERO := 0xc00
  FE_UPWARD := 0x800
  FE_DOWNWARD := 0x400
  FE_DFL_ENV := ⟨0, 0⟩

/-- Reference platform with one further, implementation-defined rounding direction of code 4
next to the four standard ones (ISO C 7.6p8 allows additional directions). -/
def extraModePlatform : Platform where
  Env := RefEnv
  fegetround s := (s.round, s)
  fesetround m s :=
    if m = 0 ∨ m = 0xc00 ∨ m = 0x800 ∨ m = 0x400 ∨ m = 4 then (0, { s with round := m })
    else (1, s)
  FE_TONEAREST := 0
  FE_TOWARDZERO := 0xc00
  FE_UPWARD := 0x800
  FE_DOWNWARD := 0x400
  FE_DFL_ENV := ⟨0, 0⟩

/-- Mock platform without rounding-mode control: `fegetround` cannot determine a rounding
direction and returns a negative value, `fesetround` refuses every argument. -/
def noControlPlatform : Platform where
  Env := Unit
  fegetround _ := (-1, ())
  fesetround _ _ := (1, ())
  FE_TONEAREST := 0
  FE_TOWARDZERO := 0xc00
  FE_UPWARD := 0x800
  FE_DOWNWARD := 0x400
  FE_DFL_ENV := ()

/-- A call into `<fenv.h>`, with its argument. -/
inductive FenvCall where
  | fegetround
  | fesetround (round : Int)
  deriving DecidableEq, Repr

/-- Recording platform: its environment is the list of library calls received so far, in
order, each with the argument it was given.  It makes the calls of the shim observable. -/
def tracePlatform : Platform where
  Env := List FenvCall
  fegetround log := (0, log ++ [FenvCall.fegetround])
  fesetround m log := (0, log ++ [FenvCall.fesetround m])
  FE_TONEAREST := 0
  FE_TOWARDZERO := 0xc00
  FE_UPWARD := 0x800
  FE_DOWNWARD := 0x400
  FE_DFL_ENV := []

/-- The error kinds of the specification (its section 7).  The C source has none of them;
the type only serves to state what the source would have to report. -/
inductive FenvError where
  | UnsupportedPlatform
  | UnrecognizedMode
  | ModeRejected
  | RestoreFailed
  deriving DecidableEq, Repr

/-- Modelled from the spec: the scoped rounding-mode override of section 4.1, which the C
source does not contain (it leaves restoration to its caller).  Built from the two source
primitives in the order the specification gives: capture the prior mode with the getter,
install the desired mode with the setter, run the enclosed computation, restore the
captured mode with the setter. -/
def scoped_override {α : Type} (P : Platform) (desired : Int)
    (body : P.Env → α × P.Env) (s : P.Env) : α × P.Env :=
  let captured := fenv_get_round P s
  let installed := fenv_set_round P desired captured.2
  let ran := body installed.2
  let restored := fenv_set_round P captured.1 ran.2
  (ran.1, restored.2)

/-! ## Helper lemmas -/

/-- The code of each of the four modes is a legal rounding mode. -/
theorem Platform.legal_code (P : Platform) (M : RoundingMode) : P.legal (P.code M) := by
  cases M <;> simp [Platform.legal, Platform.code]

/-- An integer is legal exactly when it is the code of one of the four modes. -/
theorem Platform.legal_iff_code (P : Platform) (m : Int) :
    P.legal m ↔ ∃ M : RoundingMode, m = P.code M := by
  constructor
  · rintro (h | h | h | h)
    · exact ⟨.ToNearestTiesToEven, h⟩
    · exact ⟨.TowardZero, h⟩
    · exact ⟨.TowardPositiveInfinity, h⟩
    · exact ⟨.TowardNegativeInfinity, h⟩
  · rintro ⟨M, rfl⟩
    exact P.legal_code M

/-- The reference platform reads without writing. -/
theorem refPlatform_getIsPure : refPlatform.GetIsPure := by
  intro s
  rfl

/-- The reference platform establishes each of its four rounding directions. -/
theorem refPlatform_setEstablishes : refPlatform.SetEstablishes := by
  intro m s hm
  have hm2 : m = 0 ∨ m = 0xc00 ∨ m = 0x800 ∨ m = 0x400 := hm
  simp [refPlatform, hm2]

/-- The reference platform leaves the rounding direction alone when it refuses. -/
theorem refPlatform_rejectKeepsMode : refPlatform.RejectKeepsMode := by
  intro m s hm
  have hm2 : ¬ (m = 0 ∨ m = 0xc00 ∨ m = 0x800 ∨ m = 0x400) := hm
  simp [refPlatform, hm2]

/-- The rounding constants of the mock platform are nonnegative. -/
theorem noControlPlatform_codes_nonneg : ∀ M : RoundingMode, 0 ≤ noControlPlatform.code M := by
  intro M
  cases M <;> decide

/-! ## The pass-through itself -/

/-- C8: the shim is a direct pass-through with no validation.  For every platform, every
integer `mode` (a rounding constant or not) and every environment, `fenv_set_round mode`
leaves exactly the environment `fesetround mode` leaves and returns `()`, the status being
discarded; `fenv_get_round` returns exactly what `fegetround` returns.  On the recording
platform, the only library call `fenv_set_round mode` makes is `fesetround` with that very
integer, and the only call `fenv_get_round` makes is `fegetround`. -/
theorem fenv_shim_pass_through :
    (∀ (P : Platform) (mode : Int) (s : P.Env),
        fenv_set_round P mode s = ((), (P.fesetround mode s).2)) ∧
    (∀ (P : Platform) (s : P.Env), fenv_get_round P s = P.fegetround s) ∧
    (∀ (mode : Int) (log : List FenvCall),
        (fenv_set_round tracePlatform mode log).2 = log ++ [FenvCall.fesetround mode]) ∧
    (∀ log : List FenvCall,
        (fenv_get_round tracePlatform log).2 = log ++ [FenvCall.fegetround]) :=
  ⟨fun _ _ _ => rfl, fun _ _ => rfl, fun _ _ => rfl, fun _ => rfl⟩

/-! ## Properties that hold of the shim on an ISO C platform -/

/-- C1: round trip.  On a platform whose `fesetround` establishes the four rounding
directions, for every mode `M` of the four and every starting environment,
`fenv_set_round (code M)` followed by `fenv_get_round` returns exactly the code of `M`. -/
theorem fenv_round_trip (P : Platform) (h : P.SetEstablishes) (M : RoundingMode)
    (s : P.Env) :
    (fenv_get_round P (fenv_set_round P (P.code M) s).2).1 = P.code M :=
  h (P.code M) s (P.legal_code M)

/-- Instance of the round trip on the reference platform: upward installed over downward. -/
theorem fenv_round_trip_witness :
    refPlatform.SetEstablishes ∧
    (fenv_get_round refPlatform
      (fenv_set_round refPlatform 0x800 ⟨0x400, 5⟩).2).1 = 0x800 :=
  ⟨refPlatform_setEstablishes,
   fenv_round_trip refPlatform refPlatform_setEstablishes
     RoundingMode.TowardPositiveInfinity ⟨0x400, 5⟩⟩

/-- C4: the getter is a pure read.  On a platform whose `fegetround` does not modify the
environment, `fenv_get_round` leaves every environment unchanged, and a second call right
after the first returns the same value. -/
theorem fenv_get_round_pure_read (P : Platform) (h : P.GetIsPure) (s : P.Env) :
    (fenv_get_round P s).2 = s ∧
    (fenv_get_round P (fenv_get_round P s).2).1 = (fenv_get_round P s).1 := by
  have hs : (fenv_get_round P s).2 = s := h s
  exact ⟨hs, by rw [hs]⟩

/-- Instance of the pure read on the reference platform. -/
theorem fenv_get_round_pure_read_witness :
    refPlatform.GetIsPure ∧
    (fenv_get_round refPlatform ⟨0xc00, 3⟩).2 = ⟨0xc00, 3⟩ ∧
    (fenv_get_round refPlatform (fenv_get_round refPlatform ⟨0xc00, 3⟩).2).1
      = (fenv_get_round refPlatform ⟨0xc00, 3⟩).1 :=
  ⟨refPlatform_getIsPure, fenv_get_round_pure_read refPlatform refPlatform_getIsPure ⟨0xc00, 3⟩⟩

/-- C9: a rejected set is atomic and silent.  On a platform whose `fesetround` leaves the
rounding direction alone when its argument is no rounding constant, for every integer `mode`
that is none of the four constants and every environment `s`, a `fenv_get_round` after
`fenv_set_round mode` returns what it returned in `s`; and the value the call returns to its
caller is the same as the value of any other call of `fenv_set_round`, successful ones
included. -/
theorem fenv_set_round_rejected_silent (P : Platform) (h : P.RejectKeepsMode) (mode : Int)
    (hm : ¬ P.legal mode) (s : P.Env) :
    (fenv_get_round P (fenv_set_round P mode s).2).1 = (fenv_get_round P s).1 ∧
    ∀ (Q : Platform) (m : Int) (t : Q.Env),
      (fenv_set_round P mode s).1 = (fenv_set_round Q m t).1 :=
  ⟨h mode s hm, fun _ _ _ => rfl⟩

/-- Instance of the silent rejection on the reference platform: the integer 7 is refused. -/
theorem fenv_set_round_rejected_silent_witness :
    refPlatform.RejectKeepsMode ∧ ¬ refPlatform.legal 7 ∧
    ((fenv_get_round refPlatform (fenv_set_round refPlatform 7 ⟨0x800, 0⟩).2).1
        = (fenv_get_round refPlatform ⟨0x800, 0⟩).1 ∧
      ∀ (Q : Platform) (m : Int) (t : Q.Env),
        (fenv_set_round refPlatform 7 ⟨0x800, 0⟩).1 = (fenv_set_round Q m t).1) :=
  ⟨refPlatform_rejectKeepsMode, by decide,
   fenv_set_round_rejected_silent refPlatform refPlatform_rejectKeepsMode 7 (by decide)
     ⟨0x800, 0⟩⟩

/-- C5: scoped restore on success.  On a platform whose `fesetround` establishes the four
directions, for every pair of modes `A`, `B` and every environment whose current mode is
`A`, the scoped override to `B` around any enclosed computation `body` that completes
leaves the ambient mode at `A`; and `body` was run in an environment `e` in which
`fenv_get_round` returns the code of `B`, its result being the result of the scope and the
captured mode `A` being restored right after it. -/
theorem scoped_override_restores {α : Type} (P : Platform) (h : P.SetEstablishes)
    (A B : RoundingMode) (s : P.Env) (hA : (fenv_get_round P s).1 = P.code A)
    (body : P.Env → α × P.Env) :
    (fenv_get_round P (scoped_override P (P.code B) body s).2).1 = P.code A ∧
    ∃ e : P.Env, (fenv_get_round P e).1 = P.code B ∧
      scoped_override P (P.code B) body s
        = ((body e).1, (fenv_set_round P (P.code A) (body e).2).2) := by
  constructor
  · show (P.fegetround (P.fesetround (fenv_get_round P s).1 _).2).1 = P.code A
    rw [hA]
    exact h _ _ (P.legal_code A)
  · refine ⟨(fenv_set_round P (P.code B) (fenv_get_round P s).2).2, ?_, ?_⟩
    · exact h _ _ (P.legal_code B)
    · show (_, (fenv_set_round P (fenv_get_round P s).1 _).2) = _
      rw [hA]

/-- Instance of the scoped restore on the reference platform: an override to upward around a
computation that reads the mode and raises an exception flag. -/
theorem scoped_override_restores_witness :
    (fenv_get_round refPlatform ⟨0, 0⟩).1 = 0 ∧
    (fenv_get_round refPlatform
      (scoped_override refPlatform 0x800
        (fun e : RefEnv => ((fenv_get_round refPlatform e).1 + 1, { e with excepts := 1 }))
        ⟨0, 0⟩).2).1 = 0 ∧
    ∃ e : RefEnv, (fenv_get_round refPlatform e).1 = 0x800 ∧
      scoped_override refPlatform 0x800
        (fun e : RefEnv => ((fenv_get_round refPlatform e).1 + 1, { e with excepts := 1 }))
        ⟨0, 0⟩
        = ((fenv_get_round refPlatform e).1 + 1,
           (fenv_set_round refPlatform 0 { e with excepts := 1 }).2) :=
  ⟨rfl, scoped_override_restores refPlatform refPlatform_setEstablishes
    RoundingMode.ToNearestTiesToEven RoundingMode.TowardPositiveInfinity ⟨0, 0⟩ rfl
    (fun e : RefEnv => ((fenv_get_round refPlatform e).1 + 1, { e with excepts := 1 }))⟩

/-! ## Where the source differs from the interface the specification describes

The C source has no error channel: the getter returns a plain `int`, the setter is `void`.
The three statements of this section fail on it; each is followed by what the source does
instead. -/

/-- C2, refuted as stated: on the reference platform `fesetround 0x800` succeeds (status 0)
and `fesetround 1` is refused (status 1), yet no reading `view` of the value
`fenv_set_round` returns to its caller can report success for the first call and
`ModeRejected` for the second: the refused set is reported exactly like the successful one. -/
theorem fenv_set_round_hides_rejection :
    (refPlatform.fesetround 0x800 refPlatform.FE_DFL_ENV).1 = 0 ∧
    (refPlatform.fesetround 1 refPlatform.FE_DFL_ENV).1 ≠ 0 ∧
    ¬ ∃ view : Unit → Except FenvError Unit,
        view (fenv_set_round refPlatform 0x800 refPlatform.FE_DFL_ENV).1 = Except.ok () ∧
        view (fenv_set_round refPlatform 1 refPlatform.FE_DFL_ENV).1
          = Except.error FenvError.ModeRejected := by
  refine ⟨by decide, by decide, ?_⟩
  rintro ⟨view, h1, h2⟩
  have h3 : (Except.ok () : Except FenvError Unit) = Except.error FenvError.ModeRejected :=
    h1.symm.trans h2
  cases h3

/-- C2, amended: `fenv_set_round` discards the status of `fesetround`.  Whatever status
`fesetround mode` reports in `s`, success or failure, and whatever environment `env` it
leaves, `fenv_set_round mode` returns `()` to its caller and leaves exactly `env`. -/
theorem fenv_set_round_discards_status (P : Platform) (mode : Int) (s : P.Env)
    (status : Int) (env : P.Env) (hcall : P.fesetround mode s = (status, env)) :
    fenv_set_round P mode s = ((), env) := by
  unfold fenv_set_round
  rw [hcall]

/-- Instance of the discarded status on the reference platform: the refused integer 1. -/
theorem fenv_set_round_discards_status_witness :
    refPlatform.fesetround 1 ⟨0x400, 2⟩ = (1, ⟨0x400, 2⟩) ∧
    fenv_set_round refPlatform 1 ⟨0x400, 2⟩ = ((), ⟨0x400, 2⟩) :=
  ⟨rfl, fenv_set_round_discards_status refPlatform 1 ⟨0x400, 2⟩ 1 ⟨0x400, 2⟩ rfl⟩

/-- C3, refuted as stated: on a platform with a fifth rounding direction of code 4, after
that direction has been installed through `fenv_set_round 4`, `fenv_get_round` returns 4 to
its caller, and 4 is none of the four known codes; on the platform without rounding
control it returns the value -1, which is none of them either. -/
theorem fenv_get_round_returns_unknown_code :
    (fenv_get_round extraModePlatform
      (fenv_set_round extraModePlatform 4 extraModePlatform.FE_DFL_ENV).2).1 = 4 ∧
    ¬ extraModePlatform.legal 4 ∧
    (fenv_get_round noControlPlatform noControlPlatform.FE_DFL_ENV).1 = -1 ∧
    ¬ noControlPlatform.legal (-1) := by
  refine ⟨by decide, by decide, by decide, by decide⟩

/-- C3, amended: `fenv_get_round` returns to its caller exactly the integer `fegetround`
returns, never replaced by a default; its result is the code of one of the four modes
exactly when the code `fegetround` returns is one of the four constants. -/
theorem fenv_get_round_mode_iff (P : Platform) (s : P.Env) :
    (fenv_get_round P s).1 = (P.fegetround s).1 ∧
    ((∃ M : RoundingMode, (fenv_get_round P s).1 = P.code M) ↔
      P.legal (P.fegetround s).1) :=
  ⟨rfl, (P.legal_iff_code (P.fegetround s).1).symm⟩

/-- C6, refuted as stated: on the platform without rounding control `fegetround` returns a
negative value and `fesetround` refuses every mode, and on the reference platform
`fesetround 0` succeeds; yet no reading `view` of the value `fenv_set_round` returns can
report success on the reference platform and `UnsupportedPlatform` on the platform without
control.  The getter does not fail either: it returns the integer -1. -/
theorem fenv_shim_no_unsupported_error :
    (noControlPlatform.fegetround noControlPlatform.FE_DFL_ENV).1 < 0 ∧
    (∀ (m : Int) (s : noControlPlatform.Env), (noControlPlatform.fesetround m s).1 ≠ 0) ∧
    (refPlatform.fesetround 0 refPlatform.FE_DFL_ENV).1 = 0 ∧
    (fenv_get_round noControlPlatform noControlPlatform.FE_DFL_ENV).1 = -1 ∧
    ¬ ∃ view : Unit → Except FenvError Unit,
        view (fenv_set_round refPlatform 0 refPlatform.FE_DFL_ENV).1 = Except.ok () ∧
        view (fenv_set_round noControlPlatform 0 noControlPlatform.FE_DFL_ENV).1
          = Except.error FenvError.UnsupportedPlatform := by
  refine ⟨by decide, fun _ _ => show (1 : Int) ≠ 0 by decide, by decide, by decide, ?_⟩
  rintro ⟨view, h1, h2⟩
  have h3 : (Except.ok () : Except FenvError Unit)
      = Except.error FenvError.UnsupportedPlatform := h1.symm.trans h2
  cases h3

/-- C6, amended: on a platform without rounding-mode control, where the rounding constants
are nonnegative and `fegetround` returns a negative value, neither primitive fails:
`fenv_get_round` returns that negative value, which is the code of none of the four modes,
and `fenv_set_round` returns `()` as after any set, leaving the environment as
`fesetround` left it. -/
theorem fenv_shim_without_control (P : Platform) (hcodes : ∀ M : RoundingMode, 0 ≤ P.code M)
    (s : P.Env) (hq : (P.fegetround s).1 < 0) (mode : Int) :
    (fenv_get_round P s).1 = (P.fegetround s).1 ∧
    (¬ ∃ M : RoundingMode, (fenv_get_round P s).1 = P.code M) ∧
    fenv_set_round P mode s = ((), (P.fesetround mode s).2) := by
  refine ⟨rfl, ?_, rfl⟩
  rintro ⟨M, hM⟩
  have h0 := hcodes M
  have h1 : (fenv_get_round P s).1 < 0 := hq
  omega

/-- Instance on the mock platform without rounding-mode control. -/
theorem fenv_shim_without_control_witness :
    (∀ M : RoundingMode, 0 ≤ noControlPlatform.code M) ∧
    (noControlPlatform.fegetround ()).1 < 0 ∧
    (fenv_get_round noControlPlatform ()).1 = -1 ∧
    (¬ ∃ M : RoundingMode, (fenv_get_round noControlPlatform ()).1 = noControlPlatform.code M) ∧
    fenv_set_round noControlPlatform 0x800 () = ((), ()) :=
  ⟨noControlPlatform_codes_nonneg, by decide,
   fenv_shim_without_control noControlPlatform noControlPlatform_codes_nonneg ()
     (by decide) 0x800⟩

/-! ## Where the platform decides otherwise

The two statements below fail through what the library and the thread model do around the
pass-through; each is followed by what holds instead. -/

end FenvShim
